import Mathlib

/-!
Verification of the quickjs-emscripten handle/context core against its
natural-language specification.

The embedding is trace-based: every context operation returns its result
together with the ordered list of foreign (FFI) calls it performed.  Foreign
behavior (what each `QTS_*` primitive returns) is abstracted into an
`FFIBehavior` record of pure functions, so theorems quantify over all foreign
behaviors while concrete instances remain fully executable.

Handles (`Lifetime`) are modelled as records carrying the raw pointer, an
aliveness flag, a kind (owned / static / weak-borrowed) and an optional owner
tag, following the source's `Lifetime` / `StaticLifetime` / `WeakLifetime`
classes.  The lifetime classes themselves live in `lifetime.ts`, which is not
part of the provided sources, so their dispose/consume semantics are modelled
from the specification (sections 4.1-4.4) where noted.
-/

set_option autoImplicit false

deriving instance DecidableEq for Except

namespace QJS

/-- Kind of a handle, mirroring the three lifetime classes of the source:
plain owned `Lifetime`, `StaticLifetime`, and borrowed `WeakLifetime`. -/
inductive LifetimeKind where
  | owned
  | static
  | weak
deriving DecidableEq, Repr

/-- A handle to one foreign value: raw pointer, aliveness, kind, and optional
owner tag (`Lifetime._owner` in the source). -/
structure Lifetime where
  value : Nat
  alive : Bool
  kind : LifetimeKind
  owner : Option Nat
deriving DecidableEq, Repr

/-- One foreign (FFI) call performed by the host, recorded with its
arguments.  These correspond one-to-one with the `QTS_*` primitives the
source invokes. -/
inductive FfiCall where
  | newFloat64 (ctx : Nat) (n : Int)
  | newString (ctx : Nat) (s : String)
  | newError (ctx : Nat)
  | newObject (ctx : Nat)
  | newObjectProto (ctx proto : Nat)
  | getProp (ctx obj key : Nat)
  | setProp (ctx obj key val : Nat)
  | typeofCall (ctx ptr : Nat)
  | getFloat64 (ctx ptr : Nat)
  | getString (ctx ptr : Nat)
  | dump (ctx ptr : Nat)
  | call (ctx func thisVal : Nat) (args : List Nat)
  | eval (ctx : Nat) (code : String)
  | resolveException (ctx ptr : Nat)
  | dupValuePointer (ctx ptr : Nat)
  | freeValuePointer (ctx ptr : Nat)
  | throwValue (ctx ptr : Nat)
  | argvGet (argv i : Nat)
deriving DecidableEq, Repr

/-- Modelled from the spec (section 4.1, `lifetime.ts` is not among the
provided sources): `dispose()` is idempotent; on an alive owned handle it
invokes the foreign free primitive once and marks the handle dead; on a
static handle it is a no-op (`alive` stays true, spec 4.2); on a weak
borrowed handle it performs no foreign free (spec 4.3) but marks the wrapper
dead.  The context pointer is the one captured by `freeJSValue`. -/
def Lifetime.dispose (ctxPtr : Nat) (h : Lifetime) : Lifetime × List FfiCall :=
  if h.alive then
    match h.kind with
    | .owned => ({ h with alive := false }, [.freeValuePointer ctxPtr h.value])
    | .static => (h, [])
    | .weak => ({ h with alive := false }, [])
  else
    (h, [])

/-- A scalar JSON value (the leaf values our modelled JSON parser supports). -/
inductive JsonScalar where
  | str (s : String)
  | num (n : Int)
  | bool (b : Bool)
  | null
deriving DecidableEq, Repr

/-- A host-native value, as produced by the host environment from a foreign
value (`dump` results).  Numbers are modelled as integers; composite values
are flat (object fields and array items are scalars), which is the fragment
the verified properties exercise. -/
inductive HostValue where
  | str (s : String)
  | num (n : Int)
  | undef
  | bool (b : Bool)
  | null
  | obj (fields : List (String × JsonScalar))
  | arr (items : List JsonScalar)
deriving DecidableEq, Repr

def JsonScalar.toHostValue : JsonScalar → HostValue
  | .str s => .str s
  | .num n => .num n
  | .bool b => .bool b
  | .null => .null

/-- The opening-brace character, written via its code point. -/
def lbrace : Char := Char.ofNat 123

/-- The closing-brace character, written via its code point. -/
def rbrace : Char := Char.ofNat 125

/-- Skip blanks (the only whitespace our JSON fragment admits). -/
def skipWs : List Char → List Char
  | c :: rest => if c = ' ' then skipWs rest else c :: rest
  | [] => []

/-- Consume the body of a JSON string literal up to the closing quote.
Escape sequences are outside the modelled fragment. -/
def parseStringChars : List Char → Option (List Char × List Char)
  | [] => none
  | c :: rest =>
    if c = '\"' then some ([], rest)
    else if c = '\\' then none
    else (parseStringChars rest).map (fun p => (c :: p.1, p.2))

/-- Consume a maximal run of decimal digits. -/
def parseDigits : List Char → List Char × List Char
  | [] => ([], [])
  | c :: rest =>
    if c.isDigit then
      let p := parseDigits rest
      (c :: p.1, p.2)
    else
      ([], c :: rest)

def digitsToNat (ds : List Char) : Nat :=
  ds.foldl (fun acc c => acc * 10 + (c.toNat - 48)) 0

/-- Parse an (optionally negated) integer literal. -/
def parseIntTok : List Char → Option (Int × List Char)
  | '-' :: rest =>
    match parseDigits rest with
    | ([], _) => none
    | (ds, r) => some (-(digitsToNat ds : Int), r)
  | cs =>
    match parseDigits cs with
    | ([], _) => none
    | (ds, r) => some ((digitsToNat ds : Int), r)

/-- Parse one scalar JSON value. -/
def parseScalar : List Char → Option (JsonScalar × List Char) := fun cs =>
  match cs with
  | 'n' :: 'u' :: 'l' :: 'l' :: r => some (.null, r)
  | 't' :: 'r' :: 'u' :: 'e' :: r => some (.bool true, r)
  | 'f' :: 'a' :: 'l' :: 's' :: 'e' :: r => some (.bool false, r)
  | '\"' :: r => (parseStringChars r).map (fun p => (.str (String.mk p.1), p.2))
  | _ => (parseIntTok cs).map (fun p => (.num p.1, p.2))

/-- Parse the members of a non-empty JSON object, starting after the opening
brace, consuming the closing brace. -/
def parseMembersAux : Nat → List Char → Option (List (String × JsonScalar) × List Char)
  | 0, _ => none
  | fuel + 1, cs =>
    match skipWs cs with
    | '\"' :: r =>
      match parseStringChars r with
      | none => none
      | some (k, r1) =>
        match skipWs r1 with
        | ':' :: r2 =>
          match parseScalar (skipWs r2) with
          | none => none
          | some (v, r3) =>
            match skipWs r3 with
            | ',' :: r4 =>
              (parseMembersAux fuel r4).map
                (fun p => ((String.mk k, v) :: p.1, p.2))
            | c :: r4 =>
              if c = rbrace then some ([(String.mk k, v)], r4) else none
            | [] => none
        | _ => none
    | _ => none

/-- Parse the items of a non-empty JSON array, starting after the opening
bracket, consuming the closing bracket. -/
def parseItemsAux : Nat → List Char → Option (List JsonScalar × List Char)
  | 0, _ => none
  | fuel + 1, cs =>
    match parseScalar (skipWs cs) with
    | none => none
    | some (v, r) =>
      match skipWs r with
      | ',' :: r2 => (parseItemsAux fuel r2).map (fun p => (v :: p.1, p.2))
      | ']' :: r2 => some ([v], r2)
      | _ => none

/-- Parse one JSON value: a scalar, a flat object, or a flat array. -/
def parseValue (cs0 : List Char) : Option (HostValue × List Char) :=
  match skipWs cs0 with
  | [] => none
  | c :: rest =>
    if c = lbrace then
      match skipWs rest with
      | c2 :: r2 =>
        if c2 = rbrace then some (.obj [], r2)
        else (parseMembersAux (rest.length + 1) rest).map (fun p => (.obj p.1, p.2))
      | [] => none
    else if c = '[' then
      match skipWs rest with
      | c2 :: r2 =>
        if c2 = ']' then some (.arr [], r2)
        else (parseItemsAux (rest.length + 1) rest).map (fun p => (.arr p.1, p.2))
      | [] => none
    else
      (parseScalar (c :: rest)).map (fun p => (p.1.toHostValue, p.2))

/-- Modelled from the spec: the host environment's `JSON.parse`, which the
source's `dump` applies to the foreign dump string (`JSON.parse` is a host
builtin, not repository code).  Restricted to a flat fragment of JSON (no
nested composites, no escape sequences, integer numerals); inputs outside
the fragment are treated as unparseable, i.e. as if `JSON.parse` threw. -/
def jsonParse (s : String) : Option HostValue :=
  match parseValue s.data with
  | some (v, rest) => if skipWs rest = [] then some v else none
  | none => none

/-- A host-side `Error` object (name / message / stack may each be absent),
as caught at the callback bridge boundary. -/
structure JSError where
  name : Option String
  message : Option String
  stack : Option String
deriving DecidableEq, Repr

/-- The shapes a registered host implementation's return value can take,
following `VmFunctionImplementation`: a bare handle, a `{value}` record, an
`{error}` record, or `undefined`. -/
inductive ImplResult where
  | handleResult (h : Lifetime)
  | valueResult (h : Lifetime)
  | errorResult (h : Lifetime)
  | undefResult
deriving DecidableEq, Repr

/-- Outcome of running a host implementation: it returns a result or raises
a host error. -/
inductive ImplOutcome where
  | ret (r : ImplResult)
  | raise (e : JSError)
deriving DecidableEq, Repr

/-- A registered host function implementation: receives the wrapped `this`
handle and the wrapped argument handles. -/
def HostImpl : Type := Lifetime → List Lifetime → ImplOutcome

/-- Abstract behavior of the foreign runtime's primitives: what each `QTS_*`
call returns, as pure functions of its arguments.  Theorems quantify over
this record; concrete instances make everything executable. -/
structure FFIBehavior where
  getUndefinedPtr : Nat
  newFloat64Ptr : Nat → Int → Nat
  newStringPtr : Nat → String → Nat
  newErrorPtr : Nat → Nat
  newObjectPtr : Nat → Nat
  newObjectProtoPtr : Nat → Nat → Nat
  getPropPtr : Nat → Nat → Nat → Nat
  typeofRes : Nat → Nat → String
  getFloat64Res : Nat → Nat → Int
  getStringRes : Nat → Nat → String
  dumpRes : Nat → Nat → String
  callRes : Nat → Nat → Nat → List Nat → Nat
  evalRes : Nat → String → Nat
  resolveExceptionRes : Nat → Nat → Nat
  dupRes : Nat → Nat → Nat
  throwRes : Nat → Nat → Nat
  argvGetPtr : Nat → Nat → Nat

/-- One isolated foreign runtime context: its identity tag (standing for the
`this.owner` object reference), the raw `JSContext*`, the foreign behavior,
and the registry of host function implementations keyed by integer id. -/
structure QuickJSContext where
  id : Nat
  ctxPtr : Nat
  ffi : FFIBehavior
  fnMap : List (Nat × HostImpl)

/-- The error message thrown by `assertOwned` in the source. -/
def ownershipErrorMessage : String := "Given handle created by a different VM"

/-- `QuickJSContextMemory.assertOwned`: fails iff the handle's owner is set
and differs from this context. -/
def QuickJSContext.assertOwned (c : QuickJSContext) (h : Lifetime) : Except String Unit :=
  match h.owner with
  | some o => if o ≠ c.id then .error ownershipErrorMessage else .ok ()
  | none => .ok ()

/-- `QuickJSContextMemory.heapValueHandle`: wrap a raw foreign value into an
owned handle bound to this context's dup/free primitives and owner tag. -/
def QuickJSContext.heapValueHandle (c : QuickJSContext) (ptr : Nat) : Lifetime :=
  { value := ptr, alive := true, kind := .owned, owner := some c.id }

/-- The cached `undefined` constant handle (`new StaticLifetime(ptr)`, no
owner tag). -/
def QuickJSContext.undefinedHandle (c : QuickJSContext) : Lifetime :=
  { value := c.ffi.getUndefinedPtr, alive := true, kind := .static, owner := none }

/-- `newNumber`: create a foreign number value. -/
def QuickJSContext.newNumber (c : QuickJSContext) (n : Int) : Lifetime × List FfiCall :=
  (c.heapValueHandle (c.ffi.newFloat64Ptr c.ctxPtr n), [.newFloat64 c.ctxPtr n])

/-- `newString`: create a foreign string value. -/
def QuickJSContext.newString (c : QuickJSContext) (s : String) : Lifetime × List FfiCall :=
  (c.heapValueHandle (c.ffi.newStringPtr c.ctxPtr s), [.newString c.ctxPtr s])

/-- A property key: a number, a string, or an existing handle. -/
inductive QuickJSPropertyKey where
  | num (n : Int)
  | str (s : String)
  | handle (h : Lifetime)

/-- `borrowPropertyKey`: convert a property key to a handle; a handle key is
borrowed as a static handle tagged with this context's owner. -/
def QuickJSContext.borrowPropertyKey (c : QuickJSContext) :
    QuickJSPropertyKey → Lifetime × List FfiCall
  | .num n => c.newNumber n
  | .str s => c.newString s
  | .handle h => ({ value := h.value, alive := true, kind := .static, owner := some c.id }, [])

/-- `newObject`: create a foreign object, optionally with a prototype; only
the prototype handle is ownership-checked. -/
def QuickJSContext.newObject (c : QuickJSContext) (prototype : Option Lifetime) :
    Except String Lifetime × List FfiCall :=
  match prototype with
  | some p =>
    match c.assertOwned p with
    | .error e => (.error e, [])
    | .ok _ =>
      (.ok (c.heapValueHandle (c.ffi.newObjectProtoPtr c.ctxPtr p.value)),
        [.newObjectProto c.ctxPtr p.value])
  | none =>
    (.ok (c.heapValueHandle (c.ffi.newObjectPtr c.ctxPtr)), [.newObject c.ctxPtr])

/-- `typeof`: ownership-check the handle, then ask the foreign runtime. -/
def QuickJSContext.typeof (c : QuickJSContext) (h : Lifetime) :
    Except String String × List FfiCall :=
  match c.assertOwned h with
  | .error e => (.error e, [])
  | .ok _ => (.ok (c.ffi.typeofRes c.ctxPtr h.value), [.typeofCall c.ctxPtr h.value])

/-- `getNumber`: ownership-check the handle, then convert to a host number. -/
def QuickJSContext.getNumber (c : QuickJSContext) (h : Lifetime) :
    Except String Int × List FfiCall :=
  match c.assertOwned h with
  | .error e => (.error e, [])
  | .ok _ => (.ok (c.ffi.getFloat64Res c.ctxPtr h.value), [.getFloat64 c.ctxPtr h.value])

/-- `getString`: ownership-check the handle, then convert to a host string. -/
def QuickJSContext.getString (c : QuickJSContext) (h : Lifetime) :
    Except String String × List FfiCall :=
  match c.assertOwned h with
  | .error e => (.error e, [])
  | .ok _ => (.ok (c.ffi.getStringRes c.ctxPtr h.value), [.getString c.ctxPtr h.value])

/-- `getProp`: ownership-check the receiver handle (only), borrow the key,
perform the foreign get, and dispose the borrowed key. -/
def QuickJSContext.getProp (c : QuickJSContext) (h : Lifetime) (key : QuickJSPropertyKey) :
    Except String Lifetime × List FfiCall :=
  match c.assertOwned h with
  | .error e => (.error e, [])
  | .ok _ =>
    let bk := c.borrowPropertyKey key
    let ptr := c.ffi.getPropPtr c.ctxPtr h.value bk.1.value
    let dk := bk.1.dispose c.ctxPtr
    (.ok (c.heapValueHandle ptr), bk.2 ++ [.getProp c.ctxPtr h.value bk.1.value] ++ dk.2)

/-- `setProp`: ownership-check the receiver handle (only — the value handle
is not checked), borrow the key, perform the foreign set, and dispose the
borrowed key. -/
def QuickJSContext.setProp (c : QuickJSContext) (h : Lifetime) (key : QuickJSPropertyKey)
    (value : Lifetime) : Except String Unit × List FfiCall :=
  match c.assertOwned h with
  | .error e => (.error e, [])
  | .ok _ =>
    let bk := c.borrowPropertyKey key
    let dk := bk.1.dispose c.ctxPtr
    (.ok (), bk.2 ++ [.setProp c.ctxPtr h.value bk.1.value value.value] ++ dk.2)

/-- A two-branch call outcome, modelled as the source's plain record so that
"exactly one branch" is a provable property rather than a typing artifact. -/
structure SuccessOrFail (S F : Type) where
  value : Option S
  error : Option F
deriving DecidableEq, Repr

/-- `callFunction`: ownership-check the function handle (only), perform the
foreign call, and recover a foreign exception into the `error` branch. -/
def QuickJSContext.callFunction (c : QuickJSContext) (func thisVal : Lifetime)
    (args : List Lifetime) : Except String (SuccessOrFail Lifetime Lifetime) × List FfiCall :=
  match c.assertOwned func with
  | .error e => (.error e, [])
  | .ok _ =>
    let argPtrs := args.map (·.value)
    let resultPtr := c.ffi.callRes c.ctxPtr func.value thisVal.value argPtrs
    let errorPtr := c.ffi.resolveExceptionRes c.ctxPtr resultPtr
    if errorPtr ≠ 0 then
      (.ok { value := none, error := some (c.heapValueHandle errorPtr) },
        [.call c.ctxPtr func.value thisVal.value argPtrs,
         .resolveException c.ctxPtr resultPtr,
         .freeValuePointer c.ctxPtr resultPtr])
    else
      (.ok { value := some (c.heapValueHandle resultPtr), error := none },
        [.call c.ctxPtr func.value thisVal.value argPtrs,
         .resolveException c.ctxPtr resultPtr])

/-- `evalCode`: evaluate source text; recover a foreign exception into the
`error` branch.  Never fails host-side (takes no handle argument). -/
def QuickJSContext.evalCode (c : QuickJSContext) (code : String) :
    SuccessOrFail Lifetime Lifetime × List FfiCall :=
  let resultPtr := c.ffi.evalRes c.ctxPtr code
  let errorPtr := c.ffi.resolveExceptionRes c.ctxPtr resultPtr
  if errorPtr ≠ 0 then
    ({ value := none, error := some (c.heapValueHandle errorPtr) },
      [.eval c.ctxPtr code, .resolveException c.ctxPtr resultPtr,
       .freeValuePointer c.ctxPtr resultPtr])
  else
    ({ value := some (c.heapValueHandle resultPtr), error := none },
      [.eval c.ctxPtr code, .resolveException c.ctxPtr resultPtr])

/-- `dump`: ownership-check, then best-effort conversion — a host string /
number / undefined for those foreign types, otherwise the JSON-parse of the
foreign dump string, falling back to the raw string when parsing fails. -/
def QuickJSContext.dump (c : QuickJSContext) (h : Lifetime) :
    Except String HostValue × List FfiCall :=
  match c.assertOwned h with
  | .error e => (.error e, [])
  | .ok _ =>
    let tr := c.typeof h
    match tr.1 with
    | .error e => (.error e, tr.2)
    | .ok t =>
      if t = "string" then
        let r := c.getString h
        (r.1.map HostValue.str, tr.2 ++ r.2)
      else if t = "number" then
        let r := c.getNumber h
        (r.1.map HostValue.num, tr.2 ++ r.2)
      else if t = "undefined" then
        (.ok .undef, tr.2)
      else
        let s := c.ffi.dumpRes c.ctxPtr h.value
        (.ok ((jsonParse s).getD (.str s)), tr.2 ++ [.dump c.ctxPtr h.value])

/-- A value thrown host-side by `unwrapResult` (or propagated from an inner
host failure such as an ownership error). -/
inductive HostThrown where
  | hostError (name message : String)
  | plain (v : HostValue)
  | hostRaised (msg : String)
deriving DecidableEq, Repr

/-- The `name` carried by the host error `unwrapResult` raises: the dumped
object's `name` field when it is a string, otherwise the `Error` default. -/
def dumpedErrorName (fields : List (String × JsonScalar)) : String :=
  match fields.lookup "name" with
  | some (.str nm) => nm
  | _ => "Error"

/-- `unwrapResult`: return the success value unchanged; on the error branch,
`consume` the error handle through `dump` (dump, then dispose regardless of
the dump's outcome — consume semantics modelled from spec 4.1) and raise a
host-native error: a host `Error` carrying the dumped message and name when
the dump is a truthy object with a string `message`, otherwise the dumped
value itself. -/
def QuickJSContext.unwrapResult {α : Type} (c : QuickJSContext)
    (r : SuccessOrFail α Lifetime) : Except HostThrown (Option α) × List FfiCall :=
  match r.error with
  | none => (.ok r.value, [])
  | some e =>
    let d := c.dump e
    let disp := e.dispose c.ctxPtr
    let tr := d.2 ++ disp.2
    match d.1 with
    | .error msg => (.error (.hostRaised msg), tr)
    | .ok dumped =>
      match dumped with
      | .obj fields =>
        match fields.lookup "message" with
        | some (.str m) => (.error (.hostError (dumpedErrorName fields) m), tr)
        | _ => (.error (.plain dumped), tr)
      | _ => (.error (.plain dumped), tr)

/-- The argument of `errorToHandle`: either an existing handle or a host
error object. -/
inductive ErrorOrHandle where
  | handle (h : Lifetime)
  | err (e : JSError)

/-- The trace of one optional property copy in `errorToHandle`: when the
host error's field is defined, create the foreign string, set it on the
error object (consuming the borrowed key), and dispose the string handle. -/
def QuickJSContext.copyErrProp (c : QuickJSContext) (errorHandle : Lifetime) (key : String) :
    Option String → List FfiCall
  | none => []
  | some s =>
    let hs := c.newString s
    let sp := c.setProp errorHandle (.str key) hs.1
    let dh := hs.1.dispose c.ctxPtr
    hs.2 ++ sp.2 ++ dh.2

/-- `errorToHandle`: a handle is returned as-is; a host error is converted to
a fresh foreign error object whose `name` and `message` properties are copied
when defined.  The stack branch of the source is commented out (deliberately
withheld), so the stack contributes nothing. -/
def QuickJSContext.errorToHandle (c : QuickJSContext) :
    ErrorOrHandle → Lifetime × List FfiCall
  | .handle h => (h, [])
  | .err e =>
    let errorHandle := c.heapValueHandle (c.ffi.newErrorPtr c.ctxPtr)
    (errorHandle,
      [FfiCall.newError c.ctxPtr] ++ c.copyErrProp errorHandle "name" e.name
        ++ c.copyErrProp errorHandle "message" e.message)

/-- The wrapped `this` argument of an inbound foreign call: a borrowed weak
handle owned by this context. -/
def QuickJSContext.bridgeThisHandle (c : QuickJSContext) (thisPtr : Nat) : Lifetime :=
  { value := thisPtr, alive := true, kind := .weak, owner := some c.id }

/-- The wrapped argument handles of an inbound foreign call, each fetched
from the foreign argument array and wrapped as a borrowed weak handle. -/
def QuickJSContext.bridgeArgHandles (c : QuickJSContext) (argc argv : Nat) : List Lifetime :=
  (List.range argc).map fun i =>
    { value := c.ffi.argvGetPtr argv i, alive := true, kind := .weak, owner := some c.id }

/-- The trace of foreign argument-array reads performed while wrapping the
arguments of an inbound call. -/
def bridgeArgTrace (argv argc : Nat) : List FfiCall :=
  (List.range argc).map fun i => FfiCall.argvGet argv i

/-- Result of one inbound foreign call dispatched through the bridge: the
raw pointer returned to the foreign runtime (or a host-level fatal error),
the foreign calls performed, and how many times the registered
implementation ran. -/
structure BridgeResult where
  ret : Except String Nat
  trace : List FfiCall
  implCalls : Nat
deriving Repr

/-- `cToHostCallbackFunction`: check the inbound context identity, look up
the registered implementation, wrap `this` and the arguments as weak
handles in a call-scoped scope, run the implementation once, and settle:
duplicate and return a success value, return the sentinel `0` for
undefined, or convert a failure to a foreign exception via the foreign
throw primitive.  The call-scoped scope's disposal (spec 4.4: reverse
registration order) frees the managed success handle and is a no-op on the
borrowed weak handles. -/
def QuickJSContext.cToHostCallbackFunction (c : QuickJSContext)
    (ctx thisPtr argc argv fnId : Nat) : BridgeResult :=
  if ctx ≠ c.ctxPtr then
    { ret := .error "QuickJSVm instance received C -> JS call with mismatched ctx",
      trace := [], implCalls := 0 }
  else
    match c.fnMap.lookup fnId with
    | none =>
      { ret := .error ("QuickJSVm had no callback with id " ++ toString fnId),
        trace := [], implCalls := 0 }
    | some fn =>
      let trArgs := bridgeArgTrace argv argc
      match fn (c.bridgeThisHandle thisPtr) (c.bridgeArgHandles argc argv) with
      | .ret (.handleResult h) =>
        let dh := h.dispose c.ctxPtr
        { ret := .ok (c.ffi.dupRes c.ctxPtr h.value),
          trace := trArgs ++ [.dupValuePointer c.ctxPtr h.value] ++ dh.2,
          implCalls := 1 }
      | .ret (.valueResult h) =>
        let dh := h.dispose c.ctxPtr
        { ret := .ok (c.ffi.dupRes c.ctxPtr h.value),
          trace := trArgs ++ [.dupValuePointer c.ctxPtr h.value] ++ dh.2,
          implCalls := 1 }
      | .ret (.errorResult h) =>
        let dh := h.dispose c.ctxPtr
        { ret := .ok (c.ffi.throwRes c.ctxPtr h.value),
          trace := trArgs ++ [.throwValue c.ctxPtr h.value] ++ dh.2,
          implCalls := 1 }
      | .ret .undefResult =>
        { ret := .ok 0, trace := trArgs, implCalls := 1 }
      | .raise e =>
        let eh := c.errorToHandle (.err e)
        let dh := eh.1.dispose c.ctxPtr
        { ret := .ok (c.ffi.throwRes c.ctxPtr eh.1.value),
          trace := trArgs ++ eh.2 ++ [.throwValue c.ctxPtr eh.1.value] ++ dh.2,
          implCalls := 1 }

/-- A deferred promise: the promise handle, the two resolver callback
handles, the owning context, and whether the one-shot `settled` signal has
fired. -/
structure QuickJSDeferredPromise where
  ctx : QuickJSContext
  handle : Lifetime
  resolveHandle : Lifetime
  rejectHandle : Lifetime
  settledFired : Bool

/-- `QuickJSDeferredPromise.alive`: any of the three handles is alive. -/
def QuickJSDeferredPromise.alive (d : QuickJSDeferredPromise) : Bool :=
  d.handle.alive || d.resolveHandle.alive || d.rejectHandle.alive

/-- `disposeResolvers`: dispose the resolve and reject callback handles,
each guarded by its aliveness. -/
def QuickJSDeferredPromise.disposeResolvers (d : QuickJSDeferredPromise) :
    QuickJSDeferredPromise × List FfiCall :=
  let r1 :=
    if d.resolveHandle.alive then d.resolveHandle.dispose d.ctx.ctxPtr
    else (d.resolveHandle, [])
  let r2 :=
    if d.rejectHandle.alive then d.rejectHandle.dispose d.ctx.ctxPtr
    else (d.rejectHandle, [])
  ({ d with resolveHandle := r1.1, rejectHandle := r2.1 }, r1.2 ++ r2.2)

/-- `QuickJSDeferredPromise.dispose`: dispose the promise handle if alive,
then both resolver handles; idempotent. -/
def QuickJSDeferredPromise.dispose (d : QuickJSDeferredPromise) :
    QuickJSDeferredPromise × List FfiCall :=
  let h := if d.handle.alive then d.handle.dispose d.ctx.ctxPtr else (d.handle, [])
  let dr := QuickJSDeferredPromise.disposeResolvers { d with handle := h.1 }
  (dr.1, h.2 ++ dr.2)

/-- `resolve`: no-op when the resolve callback handle is no longer alive;
otherwise call the foreign resolve callback through `callFunction` with the
given value (or the context's foreign `undefined` when omitted) as sole
argument, unwrap and dispose the call result, dispose both resolver
handles, and fire the one-shot `settled` signal.  A failure from the call
or the unwrap propagates as a host raise. -/
def QuickJSDeferredPromise.resolve (d : QuickJSDeferredPromise) (value : Option Lifetime) :
    Except HostThrown QuickJSDeferredPromise × List FfiCall :=
  if d.resolveHandle.alive = false then
    (.ok d, [])
  else
    let arg := value.getD d.ctx.undefinedHandle
    let cr := d.ctx.callFunction d.resolveHandle d.ctx.undefinedHandle [arg]
    match cr.1 with
    | .error msg => (.error (.hostRaised msg), cr.2)
    | .ok res =>
      let ur := d.ctx.unwrapResult res
      match ur.1 with
      | .error t => (.error t, cr.2 ++ ur.2)
      | .ok v =>
        let dv := match v with
          | some h => (h.dispose d.ctx.ctxPtr).2
          | none => []
        let dr := d.disposeResolvers
        (.ok { dr.1 with settledFired := true }, cr.2 ++ ur.2 ++ dv ++ dr.2)

/-- `reject`: symmetric to `resolve`, driven by the reject callback
handle. -/
def QuickJSDeferredPromise.reject (d : QuickJSDeferredPromise) (value : Option Lifetime) :
    Except HostThrown QuickJSDeferredPromise × List FfiCall :=
  if d.rejectHandle.alive = false then
    (.ok d, [])
  else
    let arg := value.getD d.ctx.undefinedHandle
    let cr := d.ctx.callFunction d.rejectHandle d.ctx.undefinedHandle [arg]
    match cr.1 with
    | .error msg => (.error (.hostRaised msg), cr.2)
    | .ok res =>
      let ur := d.ctx.unwrapResult res
      match ur.1 with
      | .error t => (.error t, cr.2 ++ ur.2)
      | .ok v =>
        let dv := match v with
          | some h => (h.dispose d.ctx.ctxPtr).2
          | none => []
        let dr := d.disposeResolvers
        (.ok { dr.1 with settledFired := true }, cr.2 ++ ur.2 ++ dv ++ dr.2)

/-! ## Auxiliary predicates and concrete instances used by the theorems -/

/-- Exactly one of the two branches of a call outcome is populated. -/
def SuccessOrFail.exclusive {S F : Type} (r : SuccessOrFail S F) : Prop :=
  (r.value.isSome = true ∧ r.error = none) ∨ (r.value = none ∧ r.error.isSome = true)

/-- Recognize a foreign duplicate call. -/
def FfiCall.isDup : FfiCall → Bool
  | .dupValuePointer _ _ => true
  | _ => false

/-- Recognize a foreign throw call. -/
def FfiCall.isThrow : FfiCall → Bool
  | .throwValue _ _ => true
  | _ => false

/-- Recognize a foreign function call. -/
def FfiCall.isCallFn : FfiCall → Bool
  | .call _ _ _ _ => true
  | _ => false

/-- Does a host value fall in the spec's claimed restriction for `dump`
results: a string, a number, or undefined? -/
def HostValue.specRestricted : HostValue → Bool
  | .str _ => true
  | .num _ => true
  | .undef => true
  | _ => false

/-- A concrete foreign behavior used to instantiate witnesses: every
primitive returns a fixed value; `typeof` reports an object, whose dump
string is a small JSON object; calls succeed (no pending exception). -/
def ffiA : FFIBehavior where
  getUndefinedPtr := 9
  newFloat64Ptr := fun _ _ => 21
  newStringPtr := fun _ _ => 22
  newErrorPtr := fun _ => 23
  newObjectPtr := fun _ => 24
  newObjectProtoPtr := fun _ _ => 25
  getPropPtr := fun _ _ _ => 26
  typeofRes := fun _ _ => "object"
  getFloat64Res := fun _ _ => 3
  getStringRes := fun _ _ => "s"
  dumpRes := fun _ _ => "\x7b\"message\":\"x\",\"name\":\"TypeError\"\x7d"
  callRes := fun _ _ _ _ => 55
  evalRes := fun _ _ => 56
  resolveExceptionRes := fun _ _ => 0
  dupRes := fun _ p => p + 100
  throwRes := fun _ _ => 0
  argvGetPtr := fun _ i => 60 + i

/-- A concrete context with identity tag 0. -/
def ctxA : QuickJSContext :=
  { id := 0, ctxPtr := 100, ffi := ffiA, fnMap := [] }

/-- A handle owned by `ctxA`. -/
def ownHandleA : Lifetime :=
  { value := 1, alive := true, kind := .owned, owner := some 0 }

/-- A handle owned by a different context (owner tag 1). -/
def foreignHandleA : Lifetime :=
  { value := 2, alive := true, kind := .owned, owner := some 1 }

/-- A registered implementation that returns `undefined`. -/
def implA : HostImpl := fun _ _ => .ret .undefResult

/-- A context whose registry binds id 1 to `implA`. -/
def ctxB : QuickJSContext :=
  { id := 0, ctxPtr := 100, ffi := ffiA, fnMap := [(1, implA)] }

/-- A fresh (unsettled) deferred promise over `ctxA`. -/
def deferredA : QuickJSDeferredPromise :=
  { ctx := ctxA,
    handle := { value := 11, alive := true, kind := .owned, owner := some 0 },
    resolveHandle := { value := 12, alive := true, kind := .owned, owner := some 0 },
    rejectHandle := { value := 13, alive := true, kind := .owned, owner := some 0 },
    settledFired := false }

/-- A deferred promise whose resolvers are already disposed (settled). -/
def deferredSettled : QuickJSDeferredPromise :=
  { ctx := ctxA,
    handle := { value := 11, alive := true, kind := .owned, owner := some 0 },
    resolveHandle := { value := 12, alive := false, kind := .owned, owner := some 0 },
    rejectHandle := { value := 13, alive := false, kind := .owned, owner := some 0 },
    settledFired := true }

/-! ## Theorems for the claims -/

/-- Claim C1 (amended): each context operation taking a handle checks
ownership of its primary handle argument (the receiver handle, the called
function, or the prototype) before anything else; when that handle's owner
is set and differs from the receiving context, the operation fails with the
ownership error and performs zero foreign calls.  (Secondary handle
arguments are not checked; see the counterexample.) -/
theorem assertOwned_gates_primary_handle (c : QuickJSContext) (h thisH val : Lifetime)
    (key : QuickJSPropertyKey) (args : List Lifetime) (o : Nat)
    (hown : h.owner = some o) (hne : o ≠ c.id) :
    c.setProp h key val = (.error ownershipErrorMessage, []) ∧
    c.getProp h key = (.error ownershipErrorMessage, []) ∧
    c.typeof h = (.error ownershipErrorMessage, []) ∧
    c.getNumber h = (.error ownershipErrorMessage, []) ∧
    c.getString h = (.error ownershipErrorMessage, []) ∧
    c.dump h = (.error ownershipErrorMessage, []) ∧
    c.callFunction h thisH args = (.error ownershipErrorMessage, []) ∧
    c.newObject (some h) = (.error ownershipErrorMessage, []) := by
  have ha : c.assertOwned h = .error ownershipErrorMessage := by
    simp [QuickJSContext.assertOwned, hown, hne]
  refine ⟨?_, ?_, ?_, ?_, ?_, ?_, ?_, ?_⟩ <;>
    simp [QuickJSContext.setProp, QuickJSContext.getProp, QuickJSContext.typeof,
      QuickJSContext.getNumber, QuickJSContext.getString, QuickJSContext.dump,
      QuickJSContext.callFunction, QuickJSContext.newObject, ha]

/-- Witness for C1's amended theorem at a concrete context and a concrete
foreign-owned handle. -/
theorem assertOwned_gates_primary_handle_witness :
    ctxA.setProp foreignHandleA (.str "k") ownHandleA = (.error ownershipErrorMessage, []) ∧
    ctxA.getProp foreignHandleA (.str "k") = (.error ownershipErrorMessage, []) ∧
    ctxA.typeof foreignHandleA = (.error ownershipErrorMessage, []) ∧
    ctxA.getNumber foreignHandleA = (.error ownershipErrorMessage, []) ∧
    ctxA.getString foreignHandleA = (.error ownershipErrorMessage, []) ∧
    ctxA.dump foreignHandleA = (.error ownershipErrorMessage, []) ∧
    ctxA.callFunction foreignHandleA ownHandleA [] = (.error ownershipErrorMessage, []) ∧
    ctxA.newObject (some foreignHandleA) = (.error ownershipErrorMessage, []) :=
  assertOwned_gates_primary_handle ctxA foreignHandleA ownHandleA ownHandleA
    (.str "k") [] 1 rfl (by decide)

/-- Counterexample to C1 as stated: `setProp` given a value handle owned by
a different context does not fail — it succeeds and performs foreign calls
(the value handle is never ownership-checked, only the receiver is). -/
theorem setProp_foreign_value_crosses_unchecked :
    (ctxA.setProp ownHandleA (.str "k") foreignHandleA).1 = .ok () ∧
    (ctxA.setProp ownHandleA (.str "k") foreignHandleA).2 =
      [.newString 100 "k", .setProp 100 1 22 2, .freeValuePointer 100 22] := by
  constructor <;> rfl

/-- Claim C2: every outcome returned by `callFunction` or `evalCode` has
exactly one of the `value` / `error` branches populated. -/
theorem callFunction_evalCode_exclusive (c : QuickJSContext) (func thisVal : Lifetime)
    (args : List Lifetime) (code : String) :
    (∀ r, (c.callFunction func thisVal args).1 = .ok r → r.exclusive) ∧
    (c.evalCode code).1.exclusive := by
  constructor
  · intro r hr
    simp only [QuickJSContext.callFunction] at hr
    split at hr
    · simp at hr
    · split at hr <;>
        (simp only [Except.ok.injEq] at hr
         subst hr
         simp [SuccessOrFail.exclusive])
  · simp only [QuickJSContext.evalCode]
    split <;> simp [SuccessOrFail.exclusive]

/-- Witness for C2 at a concrete context (the call succeeds, producing the
`value` branch). -/
theorem callFunction_evalCode_exclusive_witness :
    SuccessOrFail.exclusive
      { value := some (ctxA.heapValueHandle 55), error := (none : Option Lifetime) } :=
  (callFunction_evalCode_exclusive ctxA ownHandleA ownHandleA [] "1+2").1 _ rfl

/-- The argument-wrapping trace contains no call of a given other shape. -/
theorem bridgeArgTrace_filter_eq_nil (p : FfiCall → Bool)
    (hp : ∀ a i, p (FfiCall.argvGet a i) = false) (argv argc : Nat) :
    (bridgeArgTrace argv argc).filter p = [] := by
  unfold bridgeArgTrace
  induction List.range argc with
  | nil => rfl
  | cons i is ih => simp [List.filter, hp, ih]

/-- A dispose trace (empty or a single foreign free) contains no call of a
given other shape. -/
theorem dispose_trace_filter_eq_nil (p : FfiCall → Bool)
    (hp : ∀ a b, p (FfiCall.freeValuePointer a b) = false) (ctxPtr : Nat) (h : Lifetime) :
    ((h.dispose ctxPtr).2).filter p = [] := by
  unfold Lifetime.dispose
  split
  · split <;> simp [List.filter, hp]
  · rfl

/-- A property-copy trace contains no foreign throw call. -/
theorem copyErrProp_no_throw (c : QuickJSContext) (errorHandle : Lifetime) (key : String)
    (o : Option String) : (c.copyErrProp errorHandle key o).filter FfiCall.isThrow = [] := by
  cases o with
  | none => rfl
  | some s =>
    simp only [QuickJSContext.copyErrProp, QuickJSContext.setProp, QuickJSContext.newString,
      QuickJSContext.heapValueHandle, QuickJSContext.borrowPropertyKey]
    split <;>
      simp [Lifetime.dispose, List.filter_append, List.filter, FfiCall.isThrow]

/-- An `errorToHandle` trace (error creation and property writes) contains
no foreign throw call. -/
theorem errorToHandle_trace_no_throw (c : QuickJSContext) (e : JSError) :
    ((c.errorToHandle (.err e)).2).filter FfiCall.isThrow = [] := by
  simp [QuickJSContext.errorToHandle, List.filter_append, copyErrProp_no_throw,
    List.filter, FfiCall.isThrow]

/-- The handle produced by `errorToHandle` for a host error wraps the fresh
foreign error object. -/
theorem errorToHandle_fst (c : QuickJSContext) (e : JSError) :
    (c.errorToHandle (.err e)).1 = c.heapValueHandle (c.ffi.newErrorPtr c.ctxPtr) := rfl

/-- Claim C3: an inbound foreign call with a registered implementation runs
the implementation exactly once; a success with a value performs exactly one
foreign duplicate call on that value and returns the duplicated pointer; a
success with no value returns the sentinel 0; an `{error}` outcome or a host
raise is converted into exactly one foreign throw call and never escapes as
a host error. -/
theorem bridge_settles_impl_outcomes (c : QuickJSContext) (thisPtr argc argv fnId : Nat)
    (fn : HostImpl) (hfn : c.fnMap.lookup fnId = some fn) :
    (c.cToHostCallbackFunction c.ctxPtr thisPtr argc argv fnId).implCalls = 1 ∧
    (∀ h, fn (c.bridgeThisHandle thisPtr) (c.bridgeArgHandles argc argv) =
        .ret (.valueResult h) →
      (c.cToHostCallbackFunction c.ctxPtr thisPtr argc argv fnId).ret =
          .ok (c.ffi.dupRes c.ctxPtr h.value) ∧
        ((c.cToHostCallbackFunction c.ctxPtr thisPtr argc argv fnId).trace.filter
          FfiCall.isDup) = [.dupValuePointer c.ctxPtr h.value]) ∧
    (∀ h, fn (c.bridgeThisHandle thisPtr) (c.bridgeArgHandles argc argv) =
        .ret (.handleResult h) →
      (c.cToHostCallbackFunction c.ctxPtr thisPtr argc argv fnId).ret =
          .ok (c.ffi.dupRes c.ctxPtr h.value) ∧
        ((c.cToHostCallbackFunction c.ctxPtr thisPtr argc argv fnId).trace.filter
          FfiCall.isDup) = [.dupValuePointer c.ctxPtr h.value]) ∧
    (fn (c.bridgeThisHandle thisPtr) (c.bridgeArgHandles argc argv) = .ret .undefResult →
      (c.cToHostCallbackFunction c.ctxPtr thisPtr argc argv fnId).ret = .ok 0) ∧
    (∀ h, fn (c.bridgeThisHandle thisPtr) (c.bridgeArgHandles argc argv) =
        .ret (.errorResult h) →
      (c.cToHostCallbackFunction c.ctxPtr thisPtr argc argv fnId).ret =
          .ok (c.ffi.throwRes c.ctxPtr h.value) ∧
        ((c.cToHostCallbackFunction c.ctxPtr thisPtr argc argv fnId).trace.filter
          FfiCall.isThrow) = [.throwValue c.ctxPtr h.value]) ∧
    (∀ e, fn (c.bridgeThisHandle thisPtr) (c.bridgeArgHandles argc argv) = .raise e →
      (c.cToHostCallbackFunction c.ctxPtr thisPtr argc argv fnId).ret =
          .ok (c.ffi.throwRes c.ctxPtr (c.ffi.newErrorPtr c.ctxPtr)) ∧
        ((c.cToHostCallbackFunction c.ctxPtr thisPtr argc argv fnId).trace.filter
          FfiCall.isThrow) = [.throwValue c.ctxPtr (c.ffi.newErrorPtr c.ctxPtr)]) := by
  have hargNoDup := bridgeArgTrace_filter_eq_nil FfiCall.isDup (fun _ _ => rfl) argv argc
  have hargNoThrow := bridgeArgTrace_filter_eq_nil FfiCall.isThrow (fun _ _ => rfl) argv argc
  have hdispNoDup := dispose_trace_filter_eq_nil FfiCall.isDup (fun _ _ => rfl) c.ctxPtr
  have hdispNoThrow := dispose_trace_filter_eq_nil FfiCall.isThrow (fun _ _ => rfl) c.ctxPtr
  refine ⟨?_, ?_, ?_, ?_, ?_, ?_⟩
  · simp only [QuickJSContext.cToHostCallbackFunction, ne_eq, not_true_eq_false, if_false,
      ite_false, hfn]
    split <;> rfl
  · intro h heq
    simp [QuickJSContext.cToHostCallbackFunction, hfn, heq, List.filter_append, hargNoDup,
      hdispNoDup, List.filter, FfiCall.isDup]
  · intro h heq
    simp [QuickJSContext.cToHostCallbackFunction, hfn, heq, List.filter_append, hargNoDup,
      hdispNoDup, List.filter, FfiCall.isDup]
  · intro heq
    simp [QuickJSContext.cToHostCallbackFunction, hfn, heq]
  · intro h heq
    simp [QuickJSContext.cToHostCallbackFunction, hfn, heq, List.filter_append, hargNoThrow,
      hdispNoThrow, List.filter, FfiCall.isThrow]
  · intro e heq
    simp [QuickJSContext.cToHostCallbackFunction, hfn, heq, List.filter_append, hargNoThrow,
      hdispNoThrow, copyErrProp_no_throw, errorToHandle_fst, List.filter,
      FfiCall.isThrow, QuickJSContext.heapValueHandle, QuickJSContext.errorToHandle]

/-- Witness for C3 at a concrete context whose registry binds id 1: the
implementation runs exactly once and the undefined sentinel is returned. -/
theorem bridge_settles_impl_outcomes_witness :
    (ctxB.cToHostCallbackFunction ctxB.ctxPtr 7 2 5 1).implCalls = 1 ∧
    (ctxB.cToHostCallbackFunction ctxB.ctxPtr 7 2 5 1).ret = .ok 0 :=
  ⟨(bridge_settles_impl_outcomes ctxB 7 2 5 1 implA rfl).1,
   (bridge_settles_impl_outcomes ctxB 7 2 5 1 implA rfl).2.2.2.1 rfl⟩

/-- Claim C7: an inbound foreign call whose function id is not registered
fails with a host-level error naming the id, before any argument wrapping
or implementation invocation (empty trace, zero implementation runs); an
inbound call whose context pointer does not match this context fails the
same way. -/
theorem bridge_dispatch_fails_fast (c : QuickJSContext) (ctx thisPtr argc argv fnId : Nat) :
    (ctx = c.ctxPtr → c.fnMap.lookup fnId = none →
      c.cToHostCallbackFunction ctx thisPtr argc argv fnId =
        { ret := .error ("QuickJSVm had no callback with id " ++ toString fnId),
          trace := [], implCalls := 0 }) ∧
    (ctx ≠ c.ctxPtr →
      c.cToHostCallbackFunction ctx thisPtr argc argv fnId =
        { ret := .error "QuickJSVm instance received C -> JS call with mismatched ctx",
          trace := [], implCalls := 0 }) := by
  constructor
  · intro hctx hlk
    subst hctx
    simp [QuickJSContext.cToHostCallbackFunction, hlk]
  · intro hctx
    simp [QuickJSContext.cToHostCallbackFunction, hctx]

/-- Witness for C7: a concrete unknown id and a concrete mismatched context
pointer both fail fast with empty traces. -/
theorem bridge_dispatch_fails_fast_witness :
    ctxB.cToHostCallbackFunction ctxB.ctxPtr 7 2 5 99 =
      { ret := .error "QuickJSVm had no callback with id 99",
        trace := [], implCalls := 0 } ∧
    ctxB.cToHostCallbackFunction 101 7 2 5 1 =
      { ret := .error "QuickJSVm instance received C -> JS call with mismatched ctx",
        trace := [], implCalls := 0 } :=
  ⟨(bridge_dispatch_fails_fast ctxB ctxB.ctxPtr 7 2 5 99).1 rfl rfl,
   (bridge_dispatch_fails_fast ctxB 101 7 2 5 1).2 (by decide)⟩

/-- Claim C9: the foreign exception object built from a host error that is
not already a handle carries exactly the error's `name` and `message`
properties (the full trace equation mentions nothing else and in particular
is independent of the stack, as the second conjunct makes explicit), and in
the bridge's catch path it is injected via exactly one foreign throw call. -/
theorem errorToHandle_copies_name_message_not_stack (c : QuickJSContext) (e : JSError)
    (n m : String) (hn : e.name = some n) (hm : e.message = some m) :
    c.errorToHandle (.err e) =
      (c.heapValueHandle (c.ffi.newErrorPtr c.ctxPtr),
       [.newError c.ctxPtr,
        .newString c.ctxPtr n,
        .newString c.ctxPtr "name",
        .setProp c.ctxPtr (c.ffi.newErrorPtr c.ctxPtr) (c.ffi.newStringPtr c.ctxPtr "name")
          (c.ffi.newStringPtr c.ctxPtr n),
        .freeValuePointer c.ctxPtr (c.ffi.newStringPtr c.ctxPtr "name"),
        .freeValuePointer c.ctxPtr (c.ffi.newStringPtr c.ctxPtr n),
        .newString c.ctxPtr m,
        .newString c.ctxPtr "message",
        .setProp c.ctxPtr (c.ffi.newErrorPtr c.ctxPtr) (c.ffi.newStringPtr c.ctxPtr "message")
          (c.ffi.newStringPtr c.ctxPtr m),
        .freeValuePointer c.ctxPtr (c.ffi.newStringPtr c.ctxPtr "message"),
        .freeValuePointer c.ctxPtr (c.ffi.newStringPtr c.ctxPtr m)]) ∧
    (∀ st, c.errorToHandle (.err { e with stack := st }) = c.errorToHandle (.err e)) ∧
    (∀ (fn : HostImpl) (thisPtr argc argv fnId : Nat),
      c.fnMap.lookup fnId = some fn →
      fn (c.bridgeThisHandle thisPtr) (c.bridgeArgHandles argc argv) = .raise e →
      ((c.cToHostCallbackFunction c.ctxPtr thisPtr argc argv fnId).trace.filter
        FfiCall.isThrow) = [.throwValue c.ctxPtr (c.ffi.newErrorPtr c.ctxPtr)]) := by
  refine ⟨?_, ?_, ?_⟩
  · simp [QuickJSContext.errorToHandle, QuickJSContext.copyErrProp, hn, hm,
      QuickJSContext.setProp, QuickJSContext.assertOwned, QuickJSContext.newString,
      QuickJSContext.heapValueHandle, QuickJSContext.borrowPropertyKey, Lifetime.dispose]
  · intro st
    simp [QuickJSContext.errorToHandle]
  · intro fn thisPtr argc argv fnId hfn heq
    have hargNoThrow := bridgeArgTrace_filter_eq_nil FfiCall.isThrow (fun _ _ => rfl) argv argc
    have hdispNoThrow := dispose_trace_filter_eq_nil FfiCall.isThrow (fun _ _ => rfl) c.ctxPtr
    simp [QuickJSContext.cToHostCallbackFunction, hfn, heq, List.filter_append, hargNoThrow,
      hdispNoThrow, copyErrProp_no_throw, errorToHandle_fst, List.filter,
      FfiCall.isThrow, QuickJSContext.heapValueHandle, QuickJSContext.errorToHandle]

/-- A concrete host error carrying a name, a message, and a stack. -/
def jsErrorA : JSError :=
  { name := some "E", message := some "boom", stack := some "secret" }

/-- Witness for C9 at a concrete context and a concrete host error carrying
a name, a message, and a stack. -/
theorem errorToHandle_copies_name_message_not_stack_witness :
    ctxA.errorToHandle (.err jsErrorA) =
      (ctxA.heapValueHandle 23,
       [.newError 100, .newString 100 "E", .newString 100 "name", .setProp 100 23 22 22,
        .freeValuePointer 100 22, .freeValuePointer 100 22, .newString 100 "boom",
        .newString 100 "message", .setProp 100 23 22 22, .freeValuePointer 100 22,
        .freeValuePointer 100 22]) :=
  (errorToHandle_copies_name_message_not_stack ctxA jsErrorA "E" "boom" rfl rfl).1

/-- Claim C6: `unwrapResult` returns the success value unchanged when there
is no error branch; on an `{error}` result it dumps the error handle,
disposes it (the trailing foreign free), and raises a host-native error
carrying the dumped exception's message and name. -/
theorem unwrapResult_unwraps_and_throws {α : Type} (c : QuickJSContext)
    (r : SuccessOrFail α Lifetime) :
    (r.error = none → c.unwrapResult r = (.ok r.value, [])) ∧
    (∀ e fields msg, r.error = some e → e.kind = .owned → e.alive = true →
      (c.dump e).1 = .ok (.obj fields) → fields.lookup "message" = some (.str msg) →
      c.unwrapResult r =
        (.error (.hostError (dumpedErrorName fields) msg),
         (c.dump e).2 ++ [.freeValuePointer c.ctxPtr e.value])) := by
  constructor
  · intro h
    simp [QuickJSContext.unwrapResult, h]
  · intro e fields msg hre hk ha hd hmsg
    simp [QuickJSContext.unwrapResult, hre, hd, hmsg, Lifetime.dispose, ha, hk]

/-- The error-branch result used by the C6 witness. -/
def resultA : SuccessOrFail Nat Lifetime := { value := none, error := some ownHandleA }

/-- Witness for C6: unwrapping a concrete error result dumps the handle, to
an object with message `x` and name `TypeError`, frees it, and raises a host
error carrying that message and name. -/
theorem unwrapResult_unwraps_and_throws_witness :
    ctxA.unwrapResult resultA =
      (.error (.hostError "TypeError" "x"),
       [.typeofCall 100 1, .dump 100 1, .freeValuePointer 100 1]) :=
  (unwrapResult_unwraps_and_throws ctxA resultA).2 ownHandleA
    [("message", .str "x"), ("name", .str "TypeError")] "x" rfl rfl rfl (by decide) (by decide)

/-- Claim C8 (amended): `dump` returns a host string, number, or undefined
when the foreign `typeof` is `string`, `number`, or `undefined`
respectively; for every other foreign type it returns the host JSON-parse
of the foreign dump string — which may be any JSON value, an object
included — falling back to the raw dump string when parsing fails. -/
theorem dump_best_effort_conversion (c : QuickJSContext) (h : Lifetime)
    (hok : c.assertOwned h = .ok ()) :
    (c.ffi.typeofRes c.ctxPtr h.value = "string" →
      c.dump h = (.ok (.str (c.ffi.getStringRes c.ctxPtr h.value)),
        [.typeofCall c.ctxPtr h.value, .getString c.ctxPtr h.value])) ∧
    (c.ffi.typeofRes c.ctxPtr h.value = "number" →
      c.dump h = (.ok (.num (c.ffi.getFloat64Res c.ctxPtr h.value)),
        [.typeofCall c.ctxPtr h.value, .getFloat64 c.ctxPtr h.value])) ∧
    (c.ffi.typeofRes c.ctxPtr h.value = "undefined" →
      c.dump h = (.ok .undef, [.typeofCall c.ctxPtr h.value])) ∧
    (c.ffi.typeofRes c.ctxPtr h.value ≠ "string" →
      c.ffi.typeofRes c.ctxPtr h.value ≠ "number" →
      c.ffi.typeofRes c.ctxPtr h.value ≠ "undefined" →
      c.dump h = (.ok ((jsonParse (c.ffi.dumpRes c.ctxPtr h.value)).getD
          (.str (c.ffi.dumpRes c.ctxPtr h.value))),
        [.typeofCall c.ctxPtr h.value, .dump c.ctxPtr h.value])) := by
  refine ⟨?_, ?_, ?_, ?_⟩
  · intro h1
    simp [QuickJSContext.dump, QuickJSContext.typeof, QuickJSContext.getString,
      QuickJSContext.getNumber, hok, h1, Except.map]
  · intro h1
    simp [QuickJSContext.dump, QuickJSContext.typeof, QuickJSContext.getString,
      QuickJSContext.getNumber, hok, h1, Except.map]
  · intro h1
    simp [QuickJSContext.dump, QuickJSContext.typeof, QuickJSContext.getString,
      QuickJSContext.getNumber, hok, h1]
  · intro h1 h2 h3
    simp [QuickJSContext.dump, QuickJSContext.typeof, QuickJSContext.getString,
      QuickJSContext.getNumber, hok, h1, h2, h3]

/-- Witness for C8's amended theorem: dumping a foreign string value at a
concrete context. -/
theorem dump_best_effort_conversion_witness :
    (ctxA.dump ownHandleA).1 =
      .ok (.obj [("message", .str "x"), ("name", .str "TypeError")]) := by
  have h := (dump_best_effort_conversion ctxA ownHandleA rfl).2.2.2
    (by decide) (by decide) (by decide)
  rw [h]
  decide

/-- Counterexample to C8 as stated: for a foreign object value, `dump`
returns the JSON-parsed host object — neither a string, a number, undefined,
nor the string fallback. -/
theorem dump_returns_object_counterexample :
    (ctxA.dump ownHandleA).1 =
      .ok (.obj [("message", .str "x"), ("name", .str "TypeError")]) ∧
    HostValue.specRestricted (.obj [("message", .str "x"), ("name", .str "TypeError")]) =
      false := by
  exact ⟨by decide, rfl⟩

/-- After `disposeResolvers`, both resolver handles are dead (for owned
handles), and the promise handle and context are untouched. -/
theorem disposeResolvers_state (d : QuickJSDeferredPromise)
    (hk1 : d.resolveHandle.kind = .owned) (hk2 : d.rejectHandle.kind = .owned) :
    (d.disposeResolvers).1.resolveHandle.alive = false ∧
    (d.disposeResolvers).1.rejectHandle.alive = false ∧
    (d.disposeResolvers).1.handle = d.handle ∧
    (d.disposeResolvers).1.ctx = d.ctx := by
  unfold QuickJSDeferredPromise.disposeResolvers
  cases ha : d.resolveHandle.alive <;> cases hb : d.rejectHandle.alive <;>
    simp [Lifetime.dispose, ha, hb, hk1, hk2]

/-- Claim C4: `resolve`/`reject` on an already-settled (or disposed)
deferred promise return immediately with no foreign calls and no raise; and
after a first successful `resolve` (or `reject`), both resolver handles are
dead and every later `resolve`/`reject` is such a no-op. -/
theorem deferred_settle_once_then_noop (d : QuickJSDeferredPromise) (v w : Option Lifetime) :
    (d.resolveHandle.alive = false → d.resolve v = (.ok d, [])) ∧
    (d.rejectHandle.alive = false → d.reject v = (.ok d, [])) ∧
    (∀ d', (d.resolve v).1 = .ok d' → d.resolveHandle.alive = true →
      d.resolveHandle.kind = .owned → d.rejectHandle.kind = .owned →
      d'.resolveHandle.alive = false ∧ d'.rejectHandle.alive = false ∧
      d'.resolve w = (.ok d', []) ∧ d'.reject w = (.ok d', [])) ∧
    (∀ d', (d.reject v).1 = .ok d' → d.rejectHandle.alive = true →
      d.resolveHandle.kind = .owned → d.rejectHandle.kind = .owned →
      d'.resolveHandle.alive = false ∧ d'.rejectHandle.alive = false ∧
      d'.resolve w = (.ok d', []) ∧ d'.reject w = (.ok d', [])) := by
  refine ⟨?_, ?_, ?_, ?_⟩
  · intro h
    simp [QuickJSDeferredPromise.resolve, h]
  · intro h
    simp [QuickJSDeferredPromise.reject, h]
  · intro d' hok halive hk1 hk2
    simp only [QuickJSDeferredPromise.resolve, halive, Bool.true_eq_false, if_false,
      reduceIte] at hok
    split at hok
    · simp at hok
    · split at hok
      · simp at hok
      · simp only [Except.ok.injEq] at hok
        subst hok
        obtain ⟨h1, h2, h3, h4⟩ := disposeResolvers_state d hk1 hk2
        refine ⟨by simpa using h1, by simpa using h2, ?_, ?_⟩
        · simp [QuickJSDeferredPromise.resolve, h1]
        · simp [QuickJSDeferredPromise.reject, h2]
  · intro d' hok halive hk1 hk2
    simp only [QuickJSDeferredPromise.reject, halive, Bool.true_eq_false, if_false,
      reduceIte] at hok
    split at hok
    · simp at hok
    · split at hok
      · simp at hok
      · simp only [Except.ok.injEq] at hok
        subst hok
        obtain ⟨h1, h2, h3, h4⟩ := disposeResolvers_state d hk1 hk2
        refine ⟨by simpa using h1, by simpa using h2, ?_, ?_⟩
        · simp [QuickJSDeferredPromise.resolve, h1]
        · simp [QuickJSDeferredPromise.reject, h2]

/-- Witness for C4 at a concrete settled deferred promise: both `resolve`
and `reject` are no-ops with empty traces. -/
theorem deferred_settle_once_then_noop_witness :
    deferredSettled.resolve none = (.ok deferredSettled, []) ∧
    deferredSettled.reject none = (.ok deferredSettled, []) :=
  ⟨(deferred_settle_once_then_noop deferredSettled none none).1 rfl,
   (deferred_settle_once_then_noop deferredSettled none none).2.1 rfl⟩

/-- Claim C5: on an unsettled deferred promise whose foreign resolver call
succeeds, `resolve` (respectively `reject`) invokes the corresponding
foreign callback exactly once, with the given value — or the context's
foreign `undefined` when omitted — as sole argument, and afterwards both
resolver handles are disposed and the `settled` signal has fired. -/
theorem deferred_resolve_reject_call_once (d : QuickJSDeferredPromise) (v : Option Lifetime)
    (hk1 : d.resolveHandle.kind = .owned) (hk2 : d.rejectHandle.kind = .owned) :
    (d.resolveHandle.alive = true →
      d.ctx.assertOwned d.resolveHandle = .ok () →
      d.ctx.ffi.resolveExceptionRes d.ctx.ctxPtr
          (d.ctx.ffi.callRes d.ctx.ctxPtr d.resolveHandle.value d.ctx.undefinedHandle.value
            [(v.getD d.ctx.undefinedHandle).value]) = 0 →
      (((d.resolve v).2).filter FfiCall.isCallFn =
          [.call d.ctx.ctxPtr d.resolveHandle.value d.ctx.undefinedHandle.value
            [(v.getD d.ctx.undefinedHandle).value]] ∧
        ∃ d', (d.resolve v).1 = .ok d' ∧ d'.resolveHandle.alive = false ∧
          d'.rejectHandle.alive = false ∧ d'.settledFired = true)) ∧
    (d.rejectHandle.alive = true →
      d.ctx.assertOwned d.rejectHandle = .ok () →
      d.ctx.ffi.resolveExceptionRes d.ctx.ctxPtr
          (d.ctx.ffi.callRes d.ctx.ctxPtr d.rejectHandle.value d.ctx.undefinedHandle.value
            [(v.getD d.ctx.undefinedHandle).value]) = 0 →
      (((d.reject v).2).filter FfiCall.isCallFn =
          [.call d.ctx.ctxPtr d.rejectHandle.value d.ctx.undefinedHandle.value
            [(v.getD d.ctx.undefinedHandle).value]] ∧
        ∃ d', (d.reject v).1 = .ok d' ∧ d'.resolveHandle.alive = false ∧
          d'.rejectHandle.alive = false ∧ d'.settledFired = true)) := by
  constructor
  · intro halive hown hsucc
    cases hb : d.rejectHandle.alive <;>
      simp [QuickJSDeferredPromise.resolve, QuickJSDeferredPromise.disposeResolvers,
        QuickJSContext.callFunction, QuickJSContext.unwrapResult, QuickJSContext.heapValueHandle,
        Lifetime.dispose, halive, hown, hsucc, hk1, hk2, hb, List.filter, FfiCall.isCallFn]
  · intro halive hown hsucc
    cases hb : d.resolveHandle.alive <;>
      simp [QuickJSDeferredPromise.reject, QuickJSDeferredPromise.disposeResolvers,
        QuickJSContext.callFunction, QuickJSContext.unwrapResult, QuickJSContext.heapValueHandle,
        Lifetime.dispose, halive, hown, hsucc, hk1, hk2, hb, List.filter, FfiCall.isCallFn]

/-- Witness for C5: resolving a concrete fresh deferred promise with no
value calls the foreign resolve callback once with the foreign undefined. -/
theorem deferred_resolve_reject_call_once_witness :
    ((deferredA.resolve none).2).filter FfiCall.isCallFn = [.call 100 12 9 [9]] :=
  ((deferred_resolve_reject_call_once deferredA none rfl rfl).1 rfl rfl rfl).1

/-- Claim C10: any successful `resolve` or `reject` leaves the promise
handle itself untouched, so the deferred promise as a whole stays alive
whenever its promise handle was alive. -/
theorem deferred_settle_preserves_promise_handle (d : QuickJSDeferredPromise)
    (v : Option Lifetime) :
    (∀ d', (d.resolve v).1 = .ok d' →
      d'.handle = d.handle ∧ (d.handle.alive = true → d'.alive = true)) ∧
    (∀ d', (d.reject v).1 = .ok d' →
      d'.handle = d.handle ∧ (d.handle.alive = true → d'.alive = true)) := by
  constructor
  · intro d' hok
    simp only [QuickJSDeferredPromise.resolve] at hok
    split at hok
    · simp only [Except.ok.injEq] at hok
      subst hok
      exact ⟨rfl, fun hh => by simp [QuickJSDeferredPromise.alive, hh]⟩
    · split at hok
      · simp at hok
      · split at hok
        · simp at hok
        · simp only [Except.ok.injEq] at hok
          subst hok
          refine ⟨by simp [QuickJSDeferredPromise.disposeResolvers], fun hh => ?_⟩
          simp [QuickJSDeferredPromise.alive, QuickJSDeferredPromise.disposeResolvers, hh]
  · intro d' hok
    simp only [QuickJSDeferredPromise.reject] at hok
    split at hok
    · simp only [Except.ok.injEq] at hok
      subst hok
      exact ⟨rfl, fun hh => by simp [QuickJSDeferredPromise.alive, hh]⟩
    · split at hok
      · simp at hok
      · split at hok
        · simp at hok
        · simp only [Except.ok.injEq] at hok
          subst hok
          refine ⟨by simp [QuickJSDeferredPromise.disposeResolvers], fun hh => ?_⟩
          simp [QuickJSDeferredPromise.alive, QuickJSDeferredPromise.disposeResolvers, hh]

/-- The state of `deferredA` after a successful `resolve`. -/
def deferredASettled : QuickJSDeferredPromise :=
  { ctx := ctxA,
    handle := { value := 11, alive := true, kind := .owned, owner := some 0 },
    resolveHandle := { value := 12, alive := false, kind := .owned, owner := some 0 },
    rejectHandle := { value := 13, alive := false, kind := .owned, owner := some 0 },
    settledFired := true }

/-- Witness for C10: resolving the concrete fresh deferred promise keeps
its promise handle and leaves the deferred promise alive. -/
theorem deferred_settle_preserves_promise_handle_witness :
    deferredASettled.handle = deferredA.handle ∧ deferredASettled.alive = true :=
  ⟨((deferred_settle_preserves_promise_handle deferredA none).1 deferredASettled rfl).1,
   ((deferred_settle_preserves_promise_handle deferredA none).1 deferredASettled rfl).2 rfl⟩

end QJS
